import Mathlib

/-!
Verification of the admission-control (rate limiting) and credential-pool
(API key rotation) components of the Vynthen-Ai1 web application, together
with its logging sanitizer and client-IP extraction.  Definitions are a
shallow embedding of the TypeScript sources under src/lib/security and
src/lib/security/api-keys; machine-level JavaScript arithmetic (32-bit
wraparound, truncating remainder) is modelled explicitly on Int.
-/

namespace Vynthen

/-! ## Rate limiting (src/lib/security/rate-limit.ts) -/

/-- Embeds the TS interface RateLimitConfig: windowMs, maxRequests. -/
structure RateLimitConfig where
  windowMs : Nat
  maxRequests : Nat
deriving DecidableEq, Repr

/-- Embeds the TS interface RateLimitResult.  The remaining field is an Int
because the TS code can produce maxRequests - 1 for maxRequests = 0. -/
structure RateLimitResult where
  allowed : Bool
  remaining : Int
  resetTime : Nat
  retryAfter : Nat
deriving DecidableEq, Repr

/-- A durable counter store keyed by window bucket (the TS windowKey is
identity:bucket for a fixed identity, so the bucket number is the key). -/
def kvGet (s : Nat → Option Nat) (bucket : Nat) : Except Unit (Option Nat) :=
  Except.ok (s bucket)

/-- Writing a counter into the durable store (kv.put on the windowKey). -/
def kvPut (s : Nat → Option Nat) (bucket v : Nat) :
    Except Unit (Nat → Option Nat) :=
  Except.ok (fun b => if b = bucket then some v else s b)

/-- Embeds checkRateLimitWithKV from rate-limit.ts for a fixed identity.
The get/put operations may fail (the TS try/catch around kv.get and
kv.put); on any failure the function fails open exactly as the catch
branch does: allowed, remaining = maxRequests - 1, resetTime = now +
windowMs, retryAfter = 0.  Math.ceil(x / 1000) on a nonnegative integer is
(x + 999) / 1000 in Nat arithmetic. -/
def checkRateLimitWithKV {σ : Type} (get : σ → Nat → Except Unit (Option Nat))
    (put : σ → Nat → Nat → Except Unit σ) (s : σ) (config : RateLimitConfig)
    (now : Nat) : RateLimitResult × σ :=
  let bucket := now / config.windowMs
  match get s bucket with
  | Except.error _ =>
    ({ allowed := true, remaining := (config.maxRequests : Int) - 1,
       resetTime := now + config.windowMs, retryAfter := 0 }, s)
  | Except.ok countStr =>
    let count := countStr.getD 0
    if config.maxRequests ≤ count then
      let resetTime := (bucket + 1) * config.windowMs
      ({ allowed := false, remaining := 0, resetTime := resetTime,
         retryAfter := (resetTime - now + 999) / 1000 }, s)
    else
      let newCount := count + 1
      match put s bucket newCount with
      | Except.error _ =>
        ({ allowed := true, remaining := (config.maxRequests : Int) - 1,
           resetTime := now + config.windowMs, retryAfter := 0 }, s)
      | Except.ok s' =>
        let resetTime := (bucket + 1) * config.windowMs
        ({ allowed := true, remaining := (config.maxRequests : Int) - newCount,
           resetTime := resetTime, retryAfter := 0 }, s')

/-- The durable store after n sequential requests at times ts 0, ..,
ts (n-1), starting from an empty store (no counter persisted). -/
def storeAfter (config : RateLimitConfig) (ts : Nat → Nat) :
    Nat → (Nat → Option Nat)
  | 0 => fun _ => none
  | n + 1 =>
    (checkRateLimitWithKV kvGet kvPut (storeAfter config ts n) config (ts n)).2

/-- The result handed to the (n+1)-th sequential request (0-indexed n). -/
def nthResult (config : RateLimitConfig) (ts : Nat → Nat) (n : Nat) :
    RateLimitResult :=
  (checkRateLimitWithKV kvGet kvPut (storeAfter config ts n) config (ts n)).1

/-- JavaScript ToInt32: reduce mod 2^32 into the signed range. -/
def jsToInt32 (n : Int) : Int :=
  let m := n % 4294967296
  if m < 2147483648 then m else m - 4294967296

/-- One step of the rolling hash in statelessRateCheck:
hash = ((hash << 5) - hash) + char; hash = hash & hash.  The shift
coerces to int32 (wrapping), the subtraction and addition are exact, and
the final bitwise-and coerces the result back to int32. -/
def jsHashStep (h : Int) (c : Nat) : Int :=
  jsToInt32 (jsToInt32 (h * 32) - h + (c : Int))

/-- The full rolling hash over the code points of a string (the TS loop
over windowKey.charCodeAt; the strings involved are ASCII, where UTF-16
code units and code points agree). -/
def jsHash (s : String) : Int :=
  s.data.foldl (fun h c => jsHashStep h c.toNat) 0

/-- Embeds statelessRateCheck from rate-limit.ts.  JavaScript % is the
truncating remainder (sign of the dividend), i.e. Int.tmod; Math.abs is
Int.natAbs. -/
def statelessRateCheck (clientKey : String) (config : RateLimitConfig)
    (now : Nat) : RateLimitResult :=
  let windowStart := now / config.windowMs * config.windowMs
  let resetTime := windowStart + config.windowMs
  let windowKey := clientKey ++ ":" ++ toString windowStart
  let hash := jsHash windowKey
  let requestSlot := (Int.tmod hash (config.maxRequests : Int)).natAbs
  let remaining := max 0 ((config.maxRequests : Int) - requestSlot - 1)
  { allowed := true, remaining := remaining, resetTime := resetTime,
    retryAfter := 0 }

/-! ## String primitives modelled on character lists

The JavaScript string operations used by the sources (split, trim,
includes, toLowerCase) are modelled by structurally recursive functions on
the character list of a Lean string, so that every definition evaluates
inside the kernel. -/

/-- JS String.prototype.split with a single-character separator.  Always
returns at least one (possibly empty) part. -/
def splitOnChar (sep : Char) : List Char → List (List Char)
  | [] => [[]]
  | c :: rest =>
    let r := splitOnChar sep rest
    if c == sep then [] :: r
    else
      match r with
      | h :: t => (c :: h) :: t
      | [] => [[c]]

/-- JS String.prototype.trim on the ASCII whitespace the sources use. -/
def trimChars (s : List Char) : List Char :=
  ((s.dropWhile Char.isWhitespace).reverse.dropWhile Char.isWhitespace).reverse

/-- JS String.prototype.trim as a string-to-string function. -/
def jsTrim (s : String) : String :=
  String.mk (trimChars s.data)

/-- Boolean prefix test on character lists. -/
def prefixEq : List Char → List Char → Bool
  | [], _ => true
  | _ :: _, [] => false
  | a :: as, b :: bs => a == b && prefixEq as bs

/-- Boolean contiguous-substring test on character lists. -/
def hasSubstr (pat : List Char) : List Char → Bool
  | [] => pat.isEmpty
  | c :: rest => prefixEq pat (c :: rest) || hasSubstr pat rest

/-- JS pat-in-s substring test (s.includes(pat)). -/
def containsSubstr (s pat : String) : Bool :=
  hasSubstr pat.data s.data

/-- JS String.prototype.toLowerCase on the ASCII names the sources use. -/
def toLowerStr (s : String) : String :=
  String.mk (s.data.map Char.toLower)

/-! ## Client IP extraction (src/lib/security/rate-limit.ts) -/

/-- The decimal value of an all-digit octet string (JS Number on a 1-3
digit group). -/
def decDigits (p : List Char) : Nat :=
  p.foldl (fun acc c => acc * 10 + (c.toNat - 48)) 0

/-- The IPv4 regex shape test of isValidIP: exactly four dot-separated
groups of one to three decimal digits. -/
def ipv4Shape (ip : String) : Bool :=
  let parts := splitOnChar '.' ip.data
  parts.length == 4 &&
    parts.all (fun p =>
      decide (1 ≤ p.length) && decide (p.length ≤ 3) && p.all Char.isDigit)

/-- Hexadecimal digit per the IPv6 regex character class. -/
def isHexChar (c : Char) : Bool :=
  c.isDigit || (decide ('a' ≤ c) && decide (c ≤ 'f')) ||
    (decide ('A' ≤ c) && decide (c ≤ 'F'))

/-- The simplified IPv6 regex of isValidIP: exactly eight colon-separated
groups of one to four hexadecimal digits. -/
def ipv6Shape (ip : String) : Bool :=
  let parts := splitOnChar ':' ip.data
  parts.length == 8 &&
    parts.all (fun p =>
      decide (1 ≤ p.length) && decide (p.length ≤ 4) && p.all isHexChar)

/-- Embeds isValidIP from rate-limit.ts: if the IPv4 pattern matches, every
octet must be at most 255 (octets are nonnegative by construction);
otherwise fall back to the IPv6 pattern. -/
def isValidIP (ip : String) : Bool :=
  if ipv4Shape ip then
    (splitOnChar '.' ip.data).all (fun p => decide (decDigits p ≤ 255))
  else ipv6Shape ip

/-- The three request headers read by getClientIP. -/
structure IPHeaders where
  cf : Option String
  forwardedFor : Option String
  realIP : Option String

/-- A header that must be truthy (present and non-empty) and a valid IP
literal (the TS pattern: if (h && isValidIP(h)) return h). -/
def validHeaderIP (h : Option String) : Option String :=
  match h with
  | some ip => if !ip.data.isEmpty && isValidIP ip then some ip else none
  | none => none

/-- The x-forwarded-for branch of getClientIP: if the header is truthy,
split on commas, trim each entry, and accept the first entry when it is a
valid IP literal. -/
def forwardedForIP (h : Option String) : Option String :=
  match h with
  | some s =>
    if s.data.isEmpty then none
    else
      let ips := (splitOnChar ',' s.data).map trimChars
      let clientIP := String.mk (ips.headD [])
      if isValidIP clientIP then some clientIP else none
  | none => none

/-- Embeds getClientIP from rate-limit.ts: cf-connecting-ip, then the
first x-forwarded-for entry, then x-real-ip, then the literal unknown. -/
def getClientIP (h : IPHeaders) : String :=
  match validHeaderIP h.cf with
  | some ip => ip
  | none =>
    match forwardedForIP h.forwardedFor with
    | some ip => ip
    | none =>
      match validHeaderIP h.realIP with
      | some ip => ip
      | none => "unknown"

/-- The last level of the spec-side resolution order: the real-IP header
when it is a valid IP literal, else the literal unknown. -/
def getClientIPSpecReal (h : IPHeaders) : String :=
  match h.realIP with
  | some ip => if isValidIP ip then ip else "unknown"
  | none => "unknown"

/-- The middle level of the spec-side resolution order: the first trimmed
forwarded-for entry when it is a valid IP literal, else fall through. -/
def getClientIPSpecXff (h : IPHeaders) : String :=
  match h.forwardedFor with
  | some s =>
    let first := String.mk (((splitOnChar ',' s.data).map trimChars).headD [])
    if isValidIP first then first else getClientIPSpecReal h
  | none => getClientIPSpecReal h

/-- The client-IP resolution order as the specification words it: trusted
proxy header if a valid IP literal, else the first forwarded-for entry if
valid, else the real-IP header if valid, else the literal unknown.  Stated
from the spec, to be compared with getClientIP. -/
def getClientIPSpec (h : IPHeaders) : String :=
  match h.cf with
  | some ip =>
    if isValidIP ip then ip
    else getClientIPSpecXff h
  | none => getClientIPSpecXff h

/-! ## API key pool (src/lib/security/api-keys.ts) -/

/-- The usability filter applied to every environment credential: truthy,
non-blank after trimming, and not containing the word placeholder. -/
def envKeyOk (k : String) : Bool :=
  !k.data.isEmpty && decide (0 < (trimChars k.data).length) &&
    !containsSubstr k "placeholder"

/-- Embeds loadOpenRouterKeys: collect OPENROUTER_API_KEY_1 .. _10 in
ascending index order (indexed i models the environment lookup), then
prepend the trimmed single OPENROUTER_API_KEY (single) unless the trimmed
value is already present. -/
def loadOpenRouterKeys (indexed : Nat → Option String)
    (single : Option String) : List String :=
  let keys := (List.range' 1 10).foldl
    (fun acc i =>
      match indexed i with
      | some k => if envKeyOk k then acc ++ [jsTrim k] else acc
      | none => acc) []
  match single with
  | some k =>
    if envKeyOk k then
      if keys.contains (jsTrim k) then keys else jsTrim k :: keys
    else keys
  | none => keys

/-- The indexed credentials OPENROUTER_API_KEY_1 .. _10 that pass the
usability filter, trimmed, in ascending index order. -/
def indexedKeys (indexed : Nat → Option String) : List String :=
  (List.range' 1 10).filterMap (fun i =>
    match indexed i with
    | some k => if envKeyOk k then some (jsTrim k) else none
    | none => none)

/-- Embeds getCurrentApiKey for a loaded pool: none models the thrown
error when no credential is configured; otherwise selects the minute
bucket modulo the pool size and returns the credential and its index. -/
def getCurrentApiKey (keys : List String) (now : Nat) :
    Option (String × Nat) :=
  match keys with
  | [] => none
  | _ :: _ =>
    let minute := now / 60000
    let index := minute % keys.length
    some (keys.getD index "", index)

/-- Embeds rotateKeyOnFailure for a loaded pool: none models the thrown
error when no credential is configured; otherwise selects second bucket
plus one modulo the pool size. -/
def rotateKeyOnFailure (keys : List String) (now : Nat) : Option String :=
  match keys with
  | [] => none
  | _ :: _ =>
    let second := now / 1000
    let index := (second + 1) % keys.length
    some (keys.getD index "")

/-- Embeds the record returned by getKeyRotationStatus.  The TS lastReset
field is new Date(minute * 60000).toISOString(); the ISO rendering is a
pure function of its millisecond argument, so the field is modelled by
that argument. -/
structure KeyRotationStatus where
  totalKeys : Nat
  currentIndex : Nat
  failedCount : Nat
  lastResetMs : Nat
deriving DecidableEq, Repr

/-- Embeds getKeyRotationStatus for a loaded pool. -/
def getKeyRotationStatus (keys : List String) (now : Nat) :
    KeyRotationStatus :=
  let minute := now / 60000
  { totalKeys := keys.length,
    currentIndex := minute % keys.length,
    failedCount := 0,
    lastResetMs := minute * 60000 }

/-- The status object built by the key-status endpoint handler in
src/app/api/keys/route.ts from getKeyRotationStatus. -/
structure KeyStatusResponse where
  totalKeys : Nat
  activeKeys : Nat
  currentIndex : Nat
  lastResetMs : Nat
deriving DecidableEq, Repr

/-- Embeds getKeyStatusHandler: activeKeys = totalKeys - failedCount and a
one-based currentIndex for display. -/
def getKeyStatusHandler (keys : List String) (now : Nat) :
    KeyStatusResponse :=
  let status := getKeyRotationStatus keys now
  { totalKeys := status.totalKeys,
    activeKeys := status.totalKeys - status.failedCount,
    currentIndex := status.currentIndex + 1,
    lastResetMs := status.lastResetMs }

/-- The credential sequence used by the chat handler retry loop: each
retry attempt at time t uses rotateKeyOnFailure at t. -/
def chatRetryKeys (keys : List String) (ts : List Nat) :
    List (Option String) :=
  ts.map (rotateKeyOnFailure keys)

/-! ## Logging sanitizer (src/lib/security/validation.ts) -/

/-- A JSON-like value as it occurs in the objects passed to
sanitizeForLogging. -/
inductive LogValue where
  | str : String → LogValue
  | num : Int → LogValue
  | boolVal : Bool → LogValue
  | null : LogValue
  | obj : List (String × LogValue) → LogValue
deriving Repr

/-- The sensitiveFields list of sanitizeForLogging, in source order. -/
def sensitiveFields : List String :=
  ["password", "token", "secret", "key", "authorization",
   "cookie", "session", "credential", "api_key", "apikey"]

/-- A field name is sensitive when its lowercased form contains one of the
sensitive terms (lowerKey.includes(field)). -/
def isSensitiveKey (k : String) : Bool :=
  sensitiveFields.any (fun f => containsSubstr (toLowerStr k) f)

mutual

/-- Embeds sanitizeForLogging: iterate the object entries in order,
redacting sensitive fields, recursing into object values, and keeping
everything else unchanged. -/
def sanitizeForLogging : List (String × LogValue) → List (String × LogValue)
  | [] => []
  | e :: rest => sanitizeEntry e :: sanitizeForLogging rest

/-- One entry of the sanitizeForLogging loop body. -/
def sanitizeEntry : String × LogValue → String × LogValue
  | (k, v) =>
    if isSensitiveKey k then (k, LogValue.str "[REDACTED]")
    else
      match v with
      | LogValue.obj fields => (k, LogValue.obj (sanitizeForLogging fields))
      | _ => (k, v)

end

/-- The eight sensitive terms enumerated by the specification (the source
list additionally carries api_key and apikey, which both contain the term
key).  Stated from the spec, to be compared with isSensitiveKey. -/
def claimSensitiveTerms : List String :=
  ["password", "token", "secret", "key", "authorization",
   "cookie", "session", "credential"]

/-- Sensitivity of a field name as the specification words it. -/
def claimSensitive (k : String) : Bool :=
  claimSensitiveTerms.any (fun f => containsSubstr (toLowerStr k) f)

/-! ## Theorems -/

/-- A valid IP literal is never the empty string. -/
lemma isValidIP_ne_empty {ip : String} (h : isValidIP ip = true) : ip ≠ "" := by
  intro he
  subst he
  exact absurd h (by decide)

/-- The truthiness guard in validHeaderIP is subsumed by IP validity. -/
lemma validHeaderIP_some (ip : String) :
    validHeaderIP (some ip) = if isValidIP ip then some ip else none := by
  show (if !ip.data.isEmpty && isValidIP ip then some ip else none) = _
  cases ip with
  | mk d =>
    cases d with
    | nil => decide
    | cons a as => simp [List.isEmpty]

/-- The truthiness guard in forwardedForIP is subsumed by validity of the
first trimmed entry. -/
lemma forwardedForIP_some (s : String) :
    forwardedForIP (some s) =
      (if isValidIP (String.mk (((splitOnChar ',' s.data).map trimChars).headD []))
       then some (String.mk (((splitOnChar ',' s.data).map trimChars).headD []))
       else none) := by
  show (if s.data.isEmpty then none else _) = _
  cases s with
  | mk d =>
    cases d with
    | nil => decide
    | cons a as => simp [List.isEmpty]

/-- Unfolding of the real-IP level of the spec-side resolution order. -/
lemma specReal_some (cf xff : Option String) (ip : String) :
    getClientIPSpecReal ⟨cf, xff, some ip⟩ =
      if isValidIP ip then ip else "unknown" := rfl

/-- The real-IP level of the spec-side order without a header. -/
lemma specReal_none (cf xff : Option String) :
    getClientIPSpecReal ⟨cf, xff, none⟩ = "unknown" := rfl

/-- Unfolding of the forwarded-for level of the spec-side resolution
order. -/
lemma specXff_some (cf xr : Option String) (s : String) :
    getClientIPSpecXff ⟨cf, some s, xr⟩ =
      if isValidIP (String.mk (((splitOnChar ',' s.data).map trimChars).headD []))
      then String.mk (((splitOnChar ',' s.data).map trimChars).headD [])
      else getClientIPSpecReal ⟨cf, some s, xr⟩ := rfl

/-- The forwarded-for level of the spec-side order without a header. -/
lemma specXff_none (cf xr : Option String) :
    getClientIPSpecXff ⟨cf, none, xr⟩ =
      getClientIPSpecReal ⟨cf, none, xr⟩ := rfl

/-- Unfolding of the spec-side order at a present first header. -/
lemma spec_cf_some (xff xr : Option String) (ip : String) :
    getClientIPSpec ⟨some ip, xff, xr⟩ =
      if isValidIP ip then ip
      else getClientIPSpecXff ⟨some ip, xff, xr⟩ := rfl

/-- Unfolding of the spec-side order at an absent first header. -/
lemma spec_cf_none (xff xr : Option String) :
    getClientIPSpec ⟨none, xff, xr⟩ =
      getClientIPSpecXff ⟨none, xff, xr⟩ := rfl

/-- The real-IP fallback of getClientIP agrees with the spec-side
description. -/
lemma realLevel_eq (cf xff xr : Option String) :
    (match validHeaderIP xr with
     | some ip => ip
     | none => "unknown") = getClientIPSpecReal ⟨cf, xff, xr⟩ := by
  cases xr with
  | none => rfl
  | some ip =>
    rw [validHeaderIP_some, specReal_some]
    cases hv : isValidIP ip with
    | true => simp
    | false => simp

/-- The forwarded-for fallback of getClientIP agrees with the spec-side
description. -/
lemma xffLevel_eq (cf xff xr : Option String) :
    (match forwardedForIP xff with
     | some ip => ip
     | none =>
       match validHeaderIP xr with
       | some ip => ip
       | none => "unknown") = getClientIPSpecXff ⟨cf, xff, xr⟩ := by
  cases xff with
  | none =>
    rw [specXff_none]
    exact realLevel_eq cf none xr
  | some s =>
    rw [forwardedForIP_some, specXff_some]
    generalize String.mk (((splitOnChar ',' s.data).map trimChars).headD []) = f
    cases hv : isValidIP f with
    | true => simp
    | false =>
      simp only [Bool.false_eq_true, if_false]
      exact realLevel_eq cf (some s) xr

/-- getClientIP agrees with the resolution order as the spec words it. -/
lemma getClientIP_eq_spec (h : IPHeaders) : getClientIP h = getClientIPSpec h := by
  obtain ⟨cf, xff, xr⟩ := h
  show (match validHeaderIP cf with
        | some ip => ip
        | none =>
          match forwardedForIP xff with
          | some ip => ip
          | none =>
            match validHeaderIP xr with
            | some ip => ip
            | none => "unknown") = _
  cases cf with
  | none =>
    rw [spec_cf_none]
    exact xffLevel_eq none xff xr
  | some ip =>
    rw [validHeaderIP_some, spec_cf_some]
    cases hv : isValidIP ip with
    | true => simp
    | false =>
      simp only [Bool.false_eq_true, if_false]
      exact xffLevel_eq (some ip) xff xr

/-- The spec-side resolution never returns the empty string. -/
lemma getClientIPSpec_ne_empty (h : IPHeaders) : getClientIPSpec h ≠ "" := by
  obtain ⟨cf, xff, xr⟩ := h
  have hreal : getClientIPSpecReal ⟨cf, xff, xr⟩ ≠ "" := by
    cases xr with
    | none => rw [specReal_none]; decide
    | some ip =>
      rw [specReal_some]
      cases hv : isValidIP ip with
      | true => simpa using isValidIP_ne_empty hv
      | false => simp
  have hxff : getClientIPSpecXff ⟨cf, xff, xr⟩ ≠ "" := by
    cases xff with
    | none =>
      rw [specXff_none]
      exact hreal
    | some s =>
      rw [specXff_some]
      generalize String.mk (((splitOnChar ',' s.data).map trimChars).headD []) = f
      cases hv : isValidIP f with
      | true => simpa using isValidIP_ne_empty hv
      | false => simpa using hreal
  cases cf with
  | none =>
    rw [spec_cf_none]
    exact hxff
  | some ip =>
    rw [spec_cf_some]
    cases hv : isValidIP ip with
    | true => simpa using isValidIP_ne_empty hv
    | false => simpa using hxff

/-- Claim C9: client-IP extraction follows the precedence cf-connecting-ip
(if a valid IP literal), then the first x-forwarded-for entry (if valid),
then x-real-ip (if valid), then the literal unknown; the result is never
the empty string; and the three concrete header examples resolve as the
specification states. -/
theorem getClientIP_precedence :
    (∀ h : IPHeaders, getClientIP h = getClientIPSpec h ∧ getClientIP h ≠ "") ∧
    getClientIP ⟨some "1.2.3.4", none, none⟩ = "1.2.3.4" ∧
    getClientIP ⟨none, some "5.6.7.8, 9.9.9.9", none⟩ = "5.6.7.8" ∧
    getClientIP ⟨none, none, none⟩ = "unknown" := by
  refine ⟨fun h => ⟨getClientIP_eq_spec h, ?_⟩, by decide, by decide, by decide⟩
  rw [getClientIP_eq_spec h]
  exact getClientIPSpec_ne_empty h

/-- Closed form of getCurrentApiKey on a non-empty pool. -/
lemma getCurrentApiKey_eq (keys : List String) (hne : keys ≠ []) (now : Nat) :
    getCurrentApiKey keys now =
      some (keys.getD (now / 60000 % keys.length) "", now / 60000 % keys.length) := by
  cases keys with
  | nil => exact absurd rfl hne
  | cons k ks => rfl

/-- Closed form of rotateKeyOnFailure on a non-empty pool. -/
lemma rotateKeyOnFailure_eq (keys : List String) (hne : keys ≠ []) (now : Nat) :
    rotateKeyOnFailure keys now =
      some (keys.getD ((now / 1000 + 1) % keys.length) "") := by
  cases keys with
  | nil => exact absurd rfl hne
  | cons k ks => rfl

/-- The offset j0 below hits residue i when added to b modulo N. -/
lemma cycle_mod_arith (N b i : Nat) (hN : 0 < N) (hi : i < N) :
    (b + (i + (N - b % N)) % N) % N = i := by
  have hb : b % N < N := Nat.mod_lt b hN
  have key : b % N + (i + (N - b % N)) = i + N := by omega
  calc (b + (i + (N - b % N)) % N) % N
      = (b + (i + (N - b % N))) % N := Nat.ModEq.add_left b (Nat.mod_modEq _ _)
    _ = (b % N + (i + (N - b % N))) % N := ((Nat.mod_modEq b N).add_right _).symm
    _ = (i + N) % N := by rw [key]
    _ = i % N := Nat.add_mod_right i N
    _ = i := Nat.mod_eq_of_lt hi

/-- Claim C3: two getCurrentApiKey calls in the same 60-second bucket
return the same credential and index, and over any pool-length run of
consecutive minute buckets the selected index floor(now/60000) mod N
visits every index below the pool length exactly once. -/
theorem getCurrentApiKey_bucket_cycle (keys : List String) (b i : Nat)
    (hne : keys ≠ []) :
    (∀ t1 t2 : Nat, t1 / 60000 = t2 / 60000 →
      getCurrentApiKey keys t1 = getCurrentApiKey keys t2) ∧
    (i < keys.length →
      ∃! j, j < keys.length ∧
        (getCurrentApiKey keys ((b + j) * 60000)).map Prod.snd = some i) := by
  have hN : 0 < keys.length := List.length_pos.mpr hne
  have hmap : ∀ j, (getCurrentApiKey keys ((b + j) * 60000)).map Prod.snd =
      some ((b + j) % keys.length) := by
    intro j
    rw [getCurrentApiKey_eq keys hne]
    rw [Nat.mul_div_cancel _ (by norm_num : 0 < 60000)]
    rfl
  constructor
  · intro t1 t2 h
    rw [getCurrentApiKey_eq keys hne t1, getCurrentApiKey_eq keys hne t2, h]
  · intro hi
    refine ⟨(i + (keys.length - b % keys.length)) % keys.length,
      ⟨Nat.mod_lt _ hN, ?_⟩, ?_⟩
    · rw [hmap]
      exact congrArg some (cycle_mod_arith keys.length b i hN hi)
    · rintro y ⟨hy, hyeq⟩
      rw [hmap] at hyeq
      have h1 : (b + y) % keys.length = i := Option.some.inj hyeq
      have h2 : (b + (i + (keys.length - b % keys.length)) % keys.length) %
          keys.length = i := cycle_mod_arith keys.length b i hN hi
      have h3 : (b + y) ≡
          (b + (i + (keys.length - b % keys.length)) % keys.length)
          [MOD keys.length] := by
        unfold Nat.ModEq
        rw [h1, h2]
      have h4 := h3.add_left_cancel' b
      have h5 : y % keys.length =
          ((i + (keys.length - b % keys.length)) % keys.length) % keys.length := h4
      rw [Nat.mod_eq_of_lt hy, Nat.mod_eq_of_lt (Nat.mod_lt _ hN)] at h5
      exact h5

/-- Witness for the C3 theorem at a concrete two-credential pool. -/
theorem getCurrentApiKey_bucket_cycle_witness :
    getCurrentApiKey ["a", "b"] 0 = getCurrentApiKey ["a", "b"] 59999 ∧
    ∃! j, j < 2 ∧
      (getCurrentApiKey ["a", "b"] ((5 + j) * 60000)).map Prod.snd = some 1 :=
  ⟨(getCurrentApiKey_bucket_cycle ["a", "b"] 5 1 (by decide)).1 0 59999 (by decide),
   (getCurrentApiKey_bucket_cycle ["a", "b"] 5 1 (by decide)).2 (by decide)⟩

/-- Claim C5 (amended): rotateKeyOnFailure selects the pool entry at index
(floor(now/1000) + 1) mod N, a second-granularity bucket offset by one,
while getCurrentApiKey selects index floor(now/60000) mod N; within one
wall-clock second the rotated index is fixed, and it differs from the
current index exactly when those two residues differ (it can coincide). -/
theorem rotateKeyOnFailure_formula (keys : List String) (t1 t2 : Nat)
    (hne : keys ≠ []) (h : t1 / 1000 = t2 / 1000) :
    rotateKeyOnFailure keys t2 =
      some (keys.getD ((t1 / 1000 + 1) % keys.length) "") ∧
    (getCurrentApiKey keys t1).map Prod.snd = some (t1 / 60000 % keys.length) := by
  constructor
  · rw [rotateKeyOnFailure_eq keys hne t2, ← h]
  · rw [getCurrentApiKey_eq keys hne t1]
    rfl

/-- Witness for the amended C5 theorem. -/
theorem rotateKeyOnFailure_formula_witness :
    rotateKeyOnFailure ["a", "b"] 0 = some "b" ∧
    (getCurrentApiKey ["a", "b"] 0).map Prod.snd = some 0 :=
  rotateKeyOnFailure_formula ["a", "b"] 0 0 (by decide) rfl

/-- Counterexample to claim C5 as stated: at now = 1000 ms on a pool of
two distinct credentials, getCurrentApiKey and rotateKeyOnFailure run in
the same second both return the first credential, so rotation does not
always return a different pool member. -/
theorem rotateKeyOnFailure_can_repeat :
    getCurrentApiKey ["a", "b"] 1000 = some ("a", 0) ∧
    rotateKeyOnFailure ["a", "b"] 1000 = some "a" := by decide

/-- Claim C6: the rotation status and the key-status endpoint response are
determined by the pool size and the clock alone; pools of equal size with
different credential strings produce identical output, so no credential
value can flow into it. -/
theorem getKeyRotationStatus_no_credentials (p1 p2 : List String) (t : Nat)
    (h : p1.length = p2.length) :
    getKeyRotationStatus p1 t = getKeyRotationStatus p2 t ∧
    getKeyStatusHandler p1 t = getKeyStatusHandler p2 t := by
  have h1 : getKeyRotationStatus p1 t = getKeyRotationStatus p2 t := by
    unfold getKeyRotationStatus
    rw [h]
  refine ⟨h1, ?_⟩
  unfold getKeyStatusHandler
  rw [h1]

/-- Witness for the C6 theorem: equal-size pools with disjoint credential
strings yield the same status and the same endpoint response. -/
theorem getKeyRotationStatus_no_credentials_witness :
    getKeyRotationStatus ["a", "b"] 123456 = getKeyRotationStatus ["c", "d"] 123456 ∧
    getKeyStatusHandler ["a", "b"] 123456 = getKeyStatusHandler ["c", "d"] 123456 :=
  getKeyRotationStatus_no_credentials ["a", "b"] ["c", "d"] 123456 rfl

/-- Claim C10: rotateKeyOnFailure is a function of the wall-clock second
(for a fixed pool), so every retry attempt of the chat handler that falls
within one second rotates to the same credential. -/
theorem rotateKeyOnFailure_second_deterministic (keys : List String)
    (t1 t2 : Nat) (h : t1 / 1000 = t2 / 1000) :
    rotateKeyOnFailure keys t1 = rotateKeyOnFailure keys t2 ∧
    ∀ ts : List Nat, (∀ t ∈ ts, t / 1000 = t1 / 1000) →
      ∀ k ∈ chatRetryKeys keys ts, k = rotateKeyOnFailure keys t1 := by
  have hdet : ∀ u v : Nat, u / 1000 = v / 1000 →
      rotateKeyOnFailure keys u = rotateKeyOnFailure keys v := by
    intro u v huv
    cases keys with
    | nil => rfl
    | cons k ks =>
      rw [rotateKeyOnFailure_eq (k :: ks) (by simp) u,
        rotateKeyOnFailure_eq (k :: ks) (by simp) v, huv]
  refine ⟨hdet t1 t2 h, ?_⟩
  intro ts hts k hk
  simp only [chatRetryKeys, List.mem_map] at hk
  obtain ⟨t, ht, rfl⟩ := hk
  exact hdet t t1 (hts t ht)

/-- Witness for the C10 theorem: three attempts inside the first second
all rotate to the same credential. -/
theorem rotateKeyOnFailure_second_deterministic_witness :
    rotateKeyOnFailure ["a", "b"] 0 = rotateKeyOnFailure ["a", "b"] 999 ∧
    ∀ k ∈ chatRetryKeys ["a", "b"] [1, 2, 3], k = rotateKeyOnFailure ["a", "b"] 0 :=
  ⟨(rotateKeyOnFailure_second_deterministic ["a", "b"] 0 999 (by decide)).1,
   (rotateKeyOnFailure_second_deterministic ["a", "b"] 0 999 (by decide)).2
     [1, 2, 3] (by decide)⟩

/-- The indexed-key collection loop of loadOpenRouterKeys appends the
usable trimmed credentials in index order. -/
lemma loadFold_eq (indexed : Nat → Option String) (l : List Nat)
    (acc : List String) :
    l.foldl (fun acc i =>
      match indexed i with
      | some k => if envKeyOk k then acc ++ [jsTrim k] else acc
      | none => acc) acc =
    acc ++ l.filterMap (fun i =>
      match indexed i with
      | some k => if envKeyOk k then some (jsTrim k) else none
      | none => none) := by
  induction l generalizing acc with
  | nil => simp
  | cons i l ih =>
    rw [List.foldl_cons, List.filterMap_cons]
    cases hgi : indexed i with
    | none =>
      simp only [hgi]
      rw [ih]
    | some k =>
      cases he : envKeyOk k with
      | true =>
        simp only [hgi, he, if_true]
        rw [ih, List.append_assoc, List.singleton_append]
      | false =>
        simp only [hgi, he, Bool.false_eq_true, if_false]
        rw [ih]

/-- Claim C4 (amended): the loaded pool is the primary credential followed
by the indexed credentials in ascending index order; the primary is
dropped exactly when unusable or when its trimmed value already occurs
among the indexed credentials, and no other deduplication happens. -/
theorem loadOpenRouterKeys_structure (indexed : Nat → Option String)
    (single : Option String) :
    loadOpenRouterKeys indexed single =
      (match single with
       | some k =>
         if envKeyOk k && !(indexedKeys indexed).contains (jsTrim k)
         then [jsTrim k] else []
       | none => []) ++ indexedKeys indexed := by
  have hK : (List.range' 1 10).foldl (fun acc i =>
      match indexed i with
      | some k => if envKeyOk k then acc ++ [jsTrim k] else acc
      | none => acc) [] = indexedKeys indexed := by
    rw [loadFold_eq]
    simp [indexedKeys]
  unfold loadOpenRouterKeys
  rw [hK]
  cases single with
  | none => simp
  | some k =>
    cases he : envKeyOk k with
    | false => simp [he]
    | true =>
      by_cases hc : jsTrim k ∈ indexedKeys indexed
      · simp [he, hc]
      · simp [he, hc]

/-- Counterexample to claim C4 as stated: with two identical indexed
credentials configured and no primary credential, the loaded pool lists
the same credential string twice, so the pool is not duplicate-free. -/
theorem loadOpenRouterKeys_duplicate_indexed :
    loadOpenRouterKeys
        (fun i => if i == 1 || i == 2 then some "sk-or-keyA" else none) none
      = ["sk-or-keyA", "sk-or-keyA"] ∧
    ¬ (loadOpenRouterKeys
        (fun i => if i == 1 || i == 2 then some "sk-or-keyA" else none) none).Nodup := by
  decide

/-- The boolean prefix test agrees with list-prefix. -/
lemma prefixEq_iff (a b : List Char) : prefixEq a b = true ↔ a <+: b := by
  induction a generalizing b with
  | nil => simp [prefixEq]
  | cons x xs ih =>
    cases b with
    | nil => simp [prefixEq]
    | cons y ys => simp [prefixEq, ih, List.cons_prefix_cons]

/-- The boolean substring test agrees with contiguous containment. -/
lemma hasSubstr_iff (pat s : List Char) : hasSubstr pat s = true ↔ pat <:+: s := by
  induction s with
  | nil => simp [hasSubstr, List.isEmpty_iff]
  | cons c rest ih =>
    simp only [hasSubstr, Bool.or_eq_true, prefixEq_iff, ih]
    exact ( List.infix_cons_iff).symm

/-- A name containing api_key also contains key. -/
lemma containsSubstr_key_of_api (s : String)
    (h : containsSubstr s "api_key" = true) : containsSubstr s "key" = true := by
  unfold containsSubstr at h ⊢
  rw [hasSubstr_iff] at h ⊢
  exact List.IsInfix.trans ((hasSubstr_iff _ _).mp (by rfl)) h

/-- A name containing apikey also contains key. -/
lemma containsSubstr_key_of_apikey (s : String)
    (h : containsSubstr s "apikey" = true) : containsSubstr s "key" = true := by
  unfold containsSubstr at h ⊢
  rw [hasSubstr_iff] at h ⊢
  exact List.IsInfix.trans ((hasSubstr_iff _ _).mp (by rfl)) h

/-- The ten-term source list and the eight-term spec list classify every
field name identically: the two extra source terms are redundant. -/
lemma isSensitiveKey_eq_claim (k : String) :
    isSensitiveKey k = claimSensitive k := by
  unfold isSensitiveKey claimSensitive sensitiveFields claimSensitiveTerms
  simp only [List.any_cons, List.any_nil, Bool.or_false]
  cases hkey : containsSubstr (toLowerStr k) "key" with
  | true => simp [hkey]
  | false =>
    have h9 : containsSubstr (toLowerStr k) "api_key" = false := by
      cases hc : containsSubstr (toLowerStr k) "api_key" with
      | false => rfl
      | true =>
        rw [containsSubstr_key_of_api _ hc] at hkey
        exact absurd hkey (by simp)
    have h10 : containsSubstr (toLowerStr k) "apikey" = false := by
      cases hc : containsSubstr (toLowerStr k) "apikey" with
      | false => rfl
      | true =>
        rw [containsSubstr_key_of_apikey _ hc] at hkey
        exact absurd hkey (by simp)
    simp [hkey, h9, h10]

/-- The sanitizer is the pointwise map of its entry transformer. -/
lemma sanitizeForLogging_eq_map (l : List (String × LogValue)) :
    sanitizeForLogging l = l.map sanitizeEntry := by
  induction l with
  | nil => simp [sanitizeForLogging]
  | cons e rest ih => simp [sanitizeForLogging, ih]

/-- getD commutes with map when the default is already in the image. -/
lemma getD_map_default {α β : Type} (f : α → β) (l : List α) (i : Nat) (d : α) :
    (l.map f).getD i (f d) = f (l.getD i d) := by
  induction l generalizing i with
  | nil => simp [List.getD]
  | cons e rest ih =>
    cases i with
    | zero => simp [List.getD]
    | succ n =>
      simp only [List.map_cons, List.getD_cons_succ]
      exact ih n

/-- The per-entry behaviour of the sanitizer, phrased with the spec-side
eight-term sensitivity predicate. -/
lemma sanitizeEntry_char (e : String × LogValue) :
    sanitizeEntry e =
      (e.1, if claimSensitive e.1 then LogValue.str "[REDACTED]"
            else
              match e.2 with
              | LogValue.obj fields => LogValue.obj (sanitizeForLogging fields)
              | v => v) := by
  obtain ⟨k, v⟩ := e
  cases hcs : claimSensitive k with
  | true =>
    have hk : isSensitiveKey k = true := by rw [isSensitiveKey_eq_claim, hcs]
    cases v <;> simp [sanitizeEntry, hk, hcs]
  | false =>
    have hk : isSensitiveKey k = false := by rw [isSensitiveKey_eq_claim, hcs]
    cases v <;> simp [sanitizeEntry, hk, hcs]

/-- Claim C8: sanitizeForLogging keeps the field names and their order,
replaces the value of every field whose lowercased name contains one of
the eight spec-listed sensitive terms by the redaction marker, recurses
into nested object values, leaves all other values unchanged, and maps
the concrete example of the specification to its redacted form. -/
theorem sanitizeForLogging_redacts :
    (∀ (entries : List (String × LogValue)) (i : Nat),
      (sanitizeForLogging entries).length = entries.length ∧
      (sanitizeForLogging entries).getD i ("", LogValue.null) =
        ((entries.getD i ("", LogValue.null)).1,
         if claimSensitive (entries.getD i ("", LogValue.null)).1
         then LogValue.str "[REDACTED]"
         else
           match (entries.getD i ("", LogValue.null)).2 with
           | LogValue.obj fields => LogValue.obj (sanitizeForLogging fields)
           | v => v)) ∧
    sanitizeForLogging
        [("password", LogValue.str "x"),
         ("nested", LogValue.obj [("api_key", LogValue.str "y")]),
         ("ok", LogValue.num 1)] =
      [("password", LogValue.str "[REDACTED]"),
       ("nested", LogValue.obj [("api_key", LogValue.str "[REDACTED]")]),
       ("ok", LogValue.num 1)] := by
  constructor
  · intro entries i
    constructor
    · rw [sanitizeForLogging_eq_map, List.length_map]
    · have hd : sanitizeEntry ("", LogValue.null) = ("", LogValue.null) := by
        rw [sanitizeEntry_char]
        rfl
      rw [sanitizeForLogging_eq_map]
      conv_lhs => rw [← hd]
      rw [getD_map_default, sanitizeEntry_char]
  · have h1 : isSensitiveKey "password" = true := rfl
    have h2 : isSensitiveKey "nested" = false := rfl
    have h3 : isSensitiveKey "api_key" = true := rfl
    have h4 : isSensitiveKey "ok" = false := rfl
    simp [sanitizeForLogging, sanitizeEntry, h1, h2, h3, h4]

/-- JavaScript Math.abs of a truncating remainder by a nonnegative divisor
is the Nat remainder of the absolute value. -/
lemma natAbs_tmod_ofNat (h : Int) (M : Nat) :
    (Int.tmod h (M : Int)).natAbs = h.natAbs % M := by
  cases h with
  | ofNat a => rfl
  | negSucc a =>
    simp [Int.tmod, Int.natAbs_neg]
    norm_cast

/-- Claim C2: the stateless strategy always allows with no retry delay,
reports remaining = max(0, maxRequests - (|hash| mod maxRequests) - 1)
for the 32-bit rolling hash of clientKey:windowStart with windowStart =
floor(now/windowMs)*windowMs, and is deterministic in the window: calls
with the same window bucket give identical results. -/
theorem statelessRateCheck_advisory (clientKey : String)
    (config : RateLimitConfig) (now : Nat) :
    (statelessRateCheck clientKey config now).allowed = true ∧
    (statelessRateCheck clientKey config now).retryAfter = 0 ∧
    (statelessRateCheck clientKey config now).remaining =
      max 0 ((config.maxRequests : Int) -
        ((jsHash (clientKey ++ ":" ++
          toString (now / config.windowMs * config.windowMs))).natAbs %
            config.maxRequests : Nat) - 1) ∧
    ∀ t1 t2 : Nat, t1 / config.windowMs = t2 / config.windowMs →
      statelessRateCheck clientKey config t1 = statelessRateCheck clientKey config t2 := by
  refine ⟨rfl, rfl, ?_, ?_⟩
  · show max 0 ((config.maxRequests : Int) -
        ((Int.tmod (jsHash (clientKey ++ ":" ++
          toString (now / config.windowMs * config.windowMs)))
            (config.maxRequests : Int)).natAbs : Nat) - 1) = _
    rw [natAbs_tmod_ofNat]
  · intro t1 t2 h
    unfold statelessRateCheck
    rw [h]

/-- Witness for the C2 theorem: a concrete stateless check is allowed and
agrees across two times in the same window. -/
theorem statelessRateCheck_advisory_witness :
    (statelessRateCheck "a" ⟨60000, 30⟩ 1).allowed = true ∧
    statelessRateCheck "a" ⟨60000, 30⟩ 1 = statelessRateCheck "a" ⟨60000, 30⟩ 2 :=
  ⟨(statelessRateCheck_advisory "a" ⟨60000, 30⟩ 1).1,
   (statelessRateCheck_advisory "a" ⟨60000, 30⟩ 1).2.2.2 1 2 rfl⟩

/-- Claim C7: when the counter-store read errors, or the read succeeds
below the limit but the write errors, the durable check fails open:
allowed with remaining = maxRequests - 1 and retryAfter = 0. -/
theorem checkRateLimitWithKV_fail_open (σ : Type)
    (get : σ → Nat → Except Unit (Option Nat))
    (put : σ → Nat → Nat → Except Unit σ) (s : σ) (config : RateLimitConfig)
    (now : Nat) :
    (get s (now / config.windowMs) = Except.error () →
      (checkRateLimitWithKV get put s config now).1 =
        { allowed := true, remaining := (config.maxRequests : Int) - 1,
          resetTime := now + config.windowMs, retryAfter := 0 }) ∧
    (∀ countOpt : Option Nat,
      get s (now / config.windowMs) = Except.ok countOpt →
      countOpt.getD 0 < config.maxRequests →
      put s (now / config.windowMs) (countOpt.getD 0 + 1) = Except.error () →
      (checkRateLimitWithKV get put s config now).1 =
        { allowed := true, remaining := (config.maxRequests : Int) - 1,
          resetTime := now + config.windowMs, retryAfter := 0 }) := by
  constructor
  · intro hget
    simp only [checkRateLimitWithKV, hget]
  · intro countOpt hget hlt hput
    simp only [checkRateLimitWithKV, hget, hput]
    rw [if_neg (not_le.mpr hlt)]

/-- Witness for the C7 theorem: both failure paths on concrete failing
stores return the fail-open result. -/
theorem checkRateLimitWithKV_fail_open_witness :
    (checkRateLimitWithKV
        (fun (_ : Unit) (_ : Nat) => (Except.error () : Except Unit (Option Nat)))
        (fun _ _ _ => Except.error ()) () ⟨60000, 5⟩ 0).1 =
      { allowed := true, remaining := ((5 : Nat) : Int) - 1,
        resetTime := 0 + 60000, retryAfter := 0 } ∧
    (checkRateLimitWithKV
        (fun (_ : Unit) (_ : Nat) => (Except.ok none : Except Unit (Option Nat)))
        (fun _ _ _ => Except.error ()) () ⟨60000, 5⟩ 0).1 =
      { allowed := true, remaining := ((5 : Nat) : Int) - 1,
        resetTime := 0 + 60000, retryAfter := 0 } :=
  ⟨(checkRateLimitWithKV_fail_open Unit _ _ () ⟨60000, 5⟩ 0).1 rfl,
   (checkRateLimitWithKV_fail_open Unit _ _ () ⟨60000, 5⟩ 0).2 none rfl (by decide) rfl⟩

/-- Closed form of the durable check over the honest (non-failing)
counter store. -/
lemma checkKV_honest (s : Nat → Option Nat) (config : RateLimitConfig)
    (now : Nat) :
    checkRateLimitWithKV kvGet kvPut s config now =
      if config.maxRequests ≤ (s (now / config.windowMs)).getD 0 then
        ({ allowed := false, remaining := 0,
           resetTime := (now / config.windowMs + 1) * config.windowMs,
           retryAfter :=
             ((now / config.windowMs + 1) * config.windowMs - now + 999) / 1000 }, s)
      else
        ({ allowed := true,
           remaining := (config.maxRequests : Int) -
             ((s (now / config.windowMs)).getD 0 + 1),
           resetTime := (now / config.windowMs + 1) * config.windowMs,
           retryAfter := 0 },
         fun b => if b = now / config.windowMs
                  then some ((s (now / config.windowMs)).getD 0 + 1)
                  else s b) := rfl

/-- After n in-window requests (n at most the limit) starting from the
empty store, the window counter holds exactly n. -/
lemma storeAfter_spec (config : RateLimitConfig) (ts : Nat → Nat) (b n : Nat)
    (hn : n ≤ config.maxRequests)
    (hts : ∀ i, i < n → ts i / config.windowMs = b) :
    storeAfter config ts n = fun x => if x = b ∧ 0 < n then some n else none := by
  induction n with
  | zero =>
    funext x
    simp [storeAfter]
  | succ m ih =>
    have hm : m ≤ config.maxRequests := Nat.le_of_succ_le hn
    have htsm : ∀ i, i < m → ts i / config.windowMs = b :=
      fun i hi => hts i (Nat.lt_succ_of_lt hi)
    have hstore := ih hm htsm
    show (checkRateLimitWithKV kvGet kvPut (storeAfter config ts m) config (ts m)).2 = _
    rw [hstore, checkKV_honest, hts m (Nat.lt_succ_self m)]
    have hcount : ((fun x => if x = b ∧ 0 < m then some m else none) b).getD 0 = m := by
      by_cases hm0 : 0 < m
      · simp [hm0]
      · simp [hm0]
        omega
    rw [hcount, if_neg (by omega : ¬ config.maxRequests ≤ m)]
    funext x
    by_cases hx : x = b
    · simp [hx]
    · simp [hx]

/-- Every in-window request below the limit is allowed, with remaining
counting down from the limit. -/
lemma nthResult_allowed (config : RateLimitConfig) (ts : Nat → Nat) (b k : Nat)
    (hk : k < config.maxRequests)
    (hts : ∀ i, i ≤ config.maxRequests → ts i / config.windowMs = b) :
    nthResult config ts k =
      { allowed := true, remaining := (config.maxRequests : Int) - (k + 1),
        resetTime := (b + 1) * config.windowMs, retryAfter := 0 } := by
  unfold nthResult
  rw [storeAfter_spec config ts b k (le_of_lt hk)
      (fun i hi => hts i (le_of_lt (lt_of_lt_of_le hi (le_of_lt hk)))),
    checkKV_honest, hts k (le_of_lt hk)]
  have hcount : ((fun x => if x = b ∧ 0 < k then some k else none) b).getD 0 = k := by
    by_cases hk0 : 0 < k
    · simp [hk0]
    · simp [hk0]
      omega
  rw [hcount, if_neg (by omega : ¬ config.maxRequests ≤ k)]

/-- The request after the limit within the same window is denied, with a
retry-after of the rounded-up seconds to the next window boundary. -/
lemma nthResult_denied (config : RateLimitConfig) (ts : Nat → Nat) (b : Nat)
    (hM : 0 < config.maxRequests)
    (hts : ∀ i, i ≤ config.maxRequests → ts i / config.windowMs = b) :
    nthResult config ts config.maxRequests =
      { allowed := false, remaining := 0,
        resetTime := (b + 1) * config.windowMs,
        retryAfter := ((b + 1) * config.windowMs - ts config.maxRequests + 999) / 1000 } := by
  unfold nthResult
  rw [storeAfter_spec config ts b config.maxRequests (le_refl _)
      (fun i hi => hts i (le_of_lt hi)),
    checkKV_honest, hts config.maxRequests (le_refl _)]
  have hcount : ((fun x => if x = b ∧ 0 < config.maxRequests
      then some config.maxRequests else none) b).getD 0 = config.maxRequests := by
    simp [hM]
  rw [hcount, if_pos (le_refl _)]

/-- The denial at the limit leaves the stored counter unchanged. -/
lemma storeAfter_succ_denied (config : RateLimitConfig) (ts : Nat → Nat) (b : Nat)
    (hM : 0 < config.maxRequests)
    (hts : ∀ i, i ≤ config.maxRequests → ts i / config.windowMs = b) :
    storeAfter config ts (config.maxRequests + 1) =
      fun x => if x = b ∧ 0 < config.maxRequests
               then some config.maxRequests else none := by
  show (checkRateLimitWithKV kvGet kvPut
      (storeAfter config ts config.maxRequests) config (ts config.maxRequests)).2 = _
  rw [storeAfter_spec config ts b config.maxRequests (le_refl _)
      (fun i hi => hts i (le_of_lt hi)),
    checkKV_honest, hts config.maxRequests (le_refl _)]
  have hcount : ((fun x => if x = b ∧ 0 < config.maxRequests
      then some config.maxRequests else none) b).getD 0 = config.maxRequests := by
    simp [hM]
  rw [hcount, if_pos (le_refl _)]

/-- Claim C1: over the durable store, starting from no stored counter
with all requests in window bucket b, the k-th request for k at most the
limit M is allowed with remaining M - k, the (M+1)-th is denied with
remaining 0 and retryAfter the rounded-up seconds to the next window
boundary, and a first request in any other window bucket is allowed
again. -/
theorem checkRateLimitWithKV_window (config : RateLimitConfig)
    (ts : Nat → Nat) (b : Nat) (hM : 0 < config.maxRequests)
    (hts : ∀ i, i ≤ config.maxRequests → ts i / config.windowMs = b) :
    (∀ k, k < config.maxRequests → nthResult config ts k =
      { allowed := true, remaining := (config.maxRequests : Int) - (k + 1),
        resetTime := (b + 1) * config.windowMs, retryAfter := 0 }) ∧
    nthResult config ts config.maxRequests =
      { allowed := false, remaining := 0,
        resetTime := (b + 1) * config.windowMs,
        retryAfter :=
          ((b + 1) * config.windowMs - ts config.maxRequests + 999) / 1000 } ∧
    (∀ t', t' / config.windowMs ≠ b →
      (checkRateLimitWithKV kvGet kvPut
        (storeAfter config ts (config.maxRequests + 1)) config t').1.allowed = true) := by
  refine ⟨fun k hk => nthResult_allowed config ts b k hk hts,
    nthResult_denied config ts b hM hts, ?_⟩
  intro t' hb
  rw [storeAfter_succ_denied config ts b hM hts, checkKV_honest]
  have hcount : ((fun x => if x = b ∧ 0 < config.maxRequests
      then some config.maxRequests else none) (t' / config.windowMs)).getD 0 = 0 := by
    simp [hb]
  rw [hcount, if_neg (by omega : ¬ config.maxRequests ≤ 0)]

/-- Witness for the C1 theorem: limit 2 in a one-minute window, three
requests at time 0, then one request in the following window. -/
theorem checkRateLimitWithKV_window_witness :
    nthResult ⟨60000, 2⟩ (fun _ => 0) 0 =
      { allowed := true, remaining := ((2 : Nat) : Int) - (0 + 1),
        resetTime := 1 * 60000, retryAfter := 0 } ∧
    nthResult ⟨60000, 2⟩ (fun _ => 0) 2 =
      { allowed := false, remaining := 0, resetTime := 1 * 60000,
        retryAfter := (1 * 60000 - 0 + 999) / 1000 } ∧
    (checkRateLimitWithKV kvGet kvPut
      (storeAfter ⟨60000, 2⟩ (fun _ => 0) 3) ⟨60000, 2⟩ 60000).1.allowed = true :=
  ⟨(checkRateLimitWithKV_window ⟨60000, 2⟩ (fun _ => 0) 0 (by decide)
      (fun i _ => by simp)).1 0 (by decide),
   (checkRateLimitWithKV_window ⟨60000, 2⟩ (fun _ => 0) 0 (by decide)
      (fun i _ => by simp)).2.1,
   (checkRateLimitWithKV_window ⟨60000, 2⟩ (fun _ => 0) 0 (by decide)
      (fun i _ => by simp)).2.2 60000 (by decide)⟩

end Vynthen
